import Mathlib

/-!
Verification of the socionics-panel multi-agent pipeline (src/agents/scout.py,
src/agents/council.py, src/agents/manager.py).

Python strings are modelled as `List Char`.  The stdlib `json.loads` is
modelled by an executable JSON parser (`pyJsonLoads`) faithful to Python's
strict JSON grammar (objects, arrays, strings with escapes and surrogate
pairs, integers, decimal floats, `NaN`/`Infinity`/`-Infinity`, the exact
whitespace set, rejection of trailing data, leading zeros, control
characters and trailing commas).  Known modelling corners, none of which any
theorem below exercises: lone `\u` surrogate escapes (Python keeps a lone
surrogate code unit, which `Char` cannot represent, so the model parser
fails there), Python's recursion limit on deeply nested input, and
non-ASCII whitespace in `str.strip`.
-/

namespace SocPanel

/-- Characters of a Lean string literal; model of a Python `str` value. -/
def S (s : String) : List Char := s.data

/-- Whitespace stripped by Python's `str.strip()` (ASCII part). -/
def isPySpace (c : Char) : Bool :=
  c = ' ' || c = '\t' || c = '\n' || c = '\r' || c = Char.ofNat 11 || c = Char.ofNat 12

/-- Model of Python `str.strip()`. -/
def pyStrip (s : List Char) : List Char :=
  ((s.dropWhile isPySpace).reverse.dropWhile isPySpace).reverse

/-- Locate the first occurrence of `sep` in `s`; returns the part strictly
before it and the part strictly after it. -/
def firstSplit (sep : List Char) : List Char → Option (List Char × List Char)
  | [] => if sep.isPrefixOf ([] : List Char) then some ([], []) else none
  | c :: cs =>
    if sep.isPrefixOf (c :: cs) then some ([], (c :: cs).drop sep.length)
    else (firstSplit sep cs).map fun p => (c :: p.1, p.2)

/-- Model of Python `sep in s` (substring containment, `sep` non-empty). -/
def pyIn (sep s : List Char) : Bool := (firstSplit sep s).isSome

/-- Model of Python `s.split(sep)[0]`: everything before the first
occurrence of `sep` (all of `s` when `sep` does not occur). -/
def seg0 (sep s : List Char) : List Char :=
  match firstSplit sep s with
  | none => s
  | some p => p.1

/-- Model of Python `s.split(sep)[1]`: the segment between the first and the
second occurrence of `sep` (to the end when `sep` occurs only once).  The
code only evaluates this under an `if sep in s` guard, so the
no-occurrence branch (where Python would raise `IndexError`) is unreachable;
it is mapped to `s`. -/
def seg1 (sep s : List Char) : List Char :=
  match firstSplit sep s with
  | none => s
  | some p => seg0 sep p.2

/-- Markdown code-fence marker. -/
def fence : List Char := S "```"

/-- Markdown json-labelled code-fence marker. -/
def fenceJson : List Char := S "```json"

/-- Model of the fence-stripping block shared verbatim by
`ScoutAgent.research`, `CouncilAgent.analyze`, `ValidatorAgent.validate` and
`ManagerAgent.synthesize`:

    if "```json" in content:
        content = content.split("```json")[1].split("```")[0]
    elif "```" in content:
        content = content.split("```")[1].split("```")[0]
-/
def extractContent (content : List Char) : List Char :=
  if pyIn fenceJson content then seg0 fence (seg1 fenceJson content)
  else if pyIn fence content then seg0 fence (seg1 fence content)
  else content

/-! ## JSON values and the model of `json.loads` -/

/-- Parsed JSON values.  Python floats coming from decimal literals are kept
exactly as mantissa and decimal exponent (`floatNum m e` denotes
`m * 10 ^ e`); no theorem below compares float values. -/
inductive JsonVal where
  | null
  | bool (b : Bool)
  | intNum (n : Int)
  | floatNum (m : Int) (e : Int)
  | nan
  | inf (neg : Bool)
  | str (s : List Char)
  | arr (elems : List JsonVal)
  | obj (fields : List (List Char × JsonVal))

/-- Model of Python `d[k] = v` on a dict represented as an insertion-ordered
association list: an existing key keeps its position and gets the new value,
a new key is appended. -/
def dictSet {α : Type} : List (List Char × α) → List Char → α → List (List Char × α)
  | [], k, v => [(k, v)]
  | (k', v') :: rest, k, v =>
    if k' = k then (k', v) :: rest else (k', v') :: dictSet rest k v

/-- Model of Python `d.get(k)` on a dict represented as an association
list. -/
def dictGet {α : Type} : List (List Char × α) → List Char → Option α
  | [], _ => none
  | (k', v') :: rest, k => if k' = k then some v' else dictGet rest k

/-- Field lookup on a parsed JSON value (none on non-objects). -/
def jGet (v : JsonVal) (k : List Char) : Option JsonVal :=
  match v with
  | .obj fields => dictGet fields k
  | _ => none

/-- JSON whitespace characters (the only ones Python's json module skips
between tokens). -/
def isJsonWs (c : Char) : Bool := c = ' ' || c = '\t' || c = '\n' || c = '\r'

/-- Skip JSON whitespace. -/
def skipWs (s : List Char) : List Char := s.dropWhile isJsonWs

/-- Decimal digit test. -/
def isDigitCh (c : Char) : Bool := '0' ≤ c && c ≤ '9'

/-- Hexadecimal digit value. -/
def hexVal? (c : Char) : Option Nat :=
  if '0' ≤ c ∧ c ≤ '9' then some (c.toNat - 48)
  else if 'a' ≤ c ∧ c ≤ 'f' then some (c.toNat - 87)
  else if 'A' ≤ c ∧ c ≤ 'F' then some (c.toNat - 55)
  else none

/-- Combine four hexadecimal digits into a code unit. -/
def hex4 (a b c d : Char) : Option Nat :=
  match hexVal? a, hexVal? b, hexVal? c, hexVal? d with
  | some va, some vb, some vc, some vd => some (va * 4096 + vb * 256 + vc * 16 + vd)
  | _, _, _, _ => none

/-- Numeric value of a digit string. -/
def natFromDigits (ds : List Char) : Nat :=
  ds.foldl (fun a c => a * 10 + (c.toNat - 48)) 0

/-- Left brace character (written via its code point). -/
def lbrace : Char := Char.ofNat 123

/-- Right brace character (written via its code point). -/
def rbrace : Char := Char.ofNat 125

/-- Parse the body of a JSON string after the opening quote, up to and
consuming the closing quote.  Escapes and surrogate pairs follow Python's
strict decoder; raw control characters are rejected. -/
def parseStringBody : List Char → Option (List Char × List Char)
  | [] => none
  | c :: rest =>
    if c = '"' then some ([], rest)
    else if c = '\\' then
      match rest with
      | [] => none
      | e :: rest' =>
        if e = '"' ∨ e = '\\' ∨ e = '/' then
          (parseStringBody rest').map fun p => (e :: p.1, p.2)
        else if e = 'b' then
          (parseStringBody rest').map fun p => (Char.ofNat 8 :: p.1, p.2)
        else if e = 'f' then
          (parseStringBody rest').map fun p => (Char.ofNat 12 :: p.1, p.2)
        else if e = 'n' then
          (parseStringBody rest').map fun p => ('\n' :: p.1, p.2)
        else if e = 'r' then
          (parseStringBody rest').map fun p => ('\r' :: p.1, p.2)
        else if e = 't' then
          (parseStringBody rest').map fun p => ('\t' :: p.1, p.2)
        else if e = 'u' then
          match rest' with
          | a :: b :: c2 :: d :: rest2 =>
            match hex4 a b c2 d with
            | none => none
            | some code =>
              if 0xD800 ≤ code ∧ code ≤ 0xDBFF then
                match rest2 with
                | '\\' :: 'u' :: a2 :: b2 :: c3 :: d2 :: rest3 =>
                  match hex4 a2 b2 c3 d2 with
                  | none => none
                  | some lo =>
                    if 0xDC00 ≤ lo ∧ lo ≤ 0xDFFF then
                      (parseStringBody rest3).map fun p =>
                        (Char.ofNat (0x10000 + (code - 0xD800) * 0x400 + (lo - 0xDC00)) :: p.1, p.2)
                    else none
                | _ => none
              else if 0xDC00 ≤ code ∧ code ≤ 0xDFFF then none
              else (parseStringBody rest2).map fun p => (Char.ofNat code :: p.1, p.2)
          | _ => none
        else none
    else if c.toNat < 0x20 then none
    else (parseStringBody rest).map fun p => (c :: p.1, p.2)

/-- Parse a JSON number starting at its first character, following the
maximal-munch regex used by Python's json scanner:
`(-?(0|[1-9]\d*))(\.\d+)?([eE][+-]?\d+)?`.  A plain integer yields
`intNum`; any fractional part or exponent yields `floatNum`. -/
def parseNumber (s : List Char) : Option (JsonVal × List Char) :=
  let p := match s with
    | '-' :: t => (true, t)
    | _ => (false, s)
  let neg := p.1
  let s1 := p.2
  match s1 with
  | [] => none
  | c :: _ =>
    if isDigitCh c then
      let ipPair : List Char × List Char :=
        if c = '0' then (['0'], s1.tail)
        else (s1.takeWhile isDigitCh, s1.dropWhile isDigitCh)
      let ipDigits := ipPair.1
      let s2 := ipPair.2
      let fracPair : List Char × List Char :=
        match s2 with
        | '.' :: t =>
          let ds := t.takeWhile isDigitCh
          if ds = [] then ([], s2) else (ds, t.dropWhile isDigitCh)
        | _ => ([], s2)
      let fracDigits := fracPair.1
      let s3 := fracPair.2
      let expTriple : Int × Bool × List Char :=
        match s3 with
        | e :: t =>
          if e = 'e' ∨ e = 'E' then
            let sp : Int × List Char :=
              match t with
              | '+' :: u => (1, u)
              | '-' :: u => (-1, u)
              | _ => (1, t)
            let ds := sp.2.takeWhile isDigitCh
            if ds = [] then (0, false, s3)
            else (sp.1 * (natFromDigits ds : Int), true, sp.2.dropWhile isDigitCh)
          else (0, false, s3)
        | [] => (0, false, s3)
      let expVal := expTriple.1
      let hasExp := expTriple.2.1
      let s4 := expTriple.2.2
      let ipVal : Int := (natFromDigits ipDigits : Int)
      let sgn : Int → Int := fun x => if neg then -x else x
      if fracDigits = [] ∧ hasExp = false then some (.intNum (sgn ipVal), s2)
      else
        some (.floatNum
          (sgn (ipVal * (10 : Int) ^ fracDigits.length + (natFromDigits fracDigits : Int)))
          (expVal - (fracDigits.length : Int)), s4)
    else none

mutual

/-- Fuel-indexed JSON value parser; skips leading whitespace, parses one
value, returns it with the unconsumed rest. -/
def parseValue : Nat → List Char → Option (JsonVal × List Char)
  | 0, _ => none
  | Nat.succ fuel, s =>
    match skipWs s with
    | [] => none
    | c :: rest =>
      if c = lbrace then
        match skipWs rest with
        | [] => none
        | c2 :: rest2 =>
          if c2 = rbrace then some (.obj [], rest2)
          else parseMembers fuel (c2 :: rest2) []
      else if c = '[' then
        match skipWs rest with
        | [] => none
        | c2 :: rest2 =>
          if c2 = ']' then some (.arr [], rest2)
          else parseElems fuel (c2 :: rest2) []
      else if c = '"' then
        (parseStringBody rest).map fun p => (.str p.1, p.2)
      else if c = 't' then
        if (S "rue").isPrefixOf rest then some (.bool true, rest.drop 3) else none
      else if c = 'f' then
        if (S "alse").isPrefixOf rest then some (.bool false, rest.drop 4) else none
      else if c = 'n' then
        if (S "ull").isPrefixOf rest then some (.null, rest.drop 3) else none
      else if c = 'N' then
        if (S "aN").isPrefixOf rest then some (.nan, rest.drop 2) else none
      else if c = 'I' then
        if (S "nfinity").isPrefixOf rest then some (.inf false, rest.drop 7) else none
      else if c = '-' then
        if (S "Infinity").isPrefixOf rest then some (.inf true, rest.drop 8)
        else parseNumber (c :: rest)
      else if isDigitCh c then parseNumber (c :: rest)
      else none

/-- Parse the members of a JSON object, cursor at a key's opening quote;
duplicate keys override earlier values like a Python dict. -/
def parseMembers : Nat → List Char → List (List Char × JsonVal) →
    Option (JsonVal × List Char)
  | 0, _, _ => none
  | Nat.succ fuel, s, acc =>
    match s with
    | [] => none
    | c :: rest =>
      if c = '"' then
        match parseStringBody rest with
        | none => none
        | some (key, rest2) =>
          match skipWs rest2 with
          | [] => none
          | c2 :: rest3 =>
            if c2 = ':' then
              match parseValue fuel rest3 with
              | none => none
              | some (v, rest4) =>
                match skipWs rest4 with
                | [] => none
                | c3 :: rest5 =>
                  if c3 = ',' then
                    match skipWs rest5 with
                    | [] => none
                    | c4 :: rest6 => parseMembers fuel (c4 :: rest6) (dictSet acc key v)
                  else if c3 = rbrace then some (.obj (dictSet acc key v), rest5)
                  else none
            else none
      else none

/-- Parse the elements of a JSON array, cursor at the first character of an
element. -/
def parseElems : Nat → List Char → List JsonVal → Option (JsonVal × List Char)
  | 0, _, _ => none
  | Nat.succ fuel, s, acc =>
    match parseValue fuel s with
    | none => none
    | some (v, rest) =>
      match skipWs rest with
      | [] => none
      | c :: rest2 =>
        if c = ',' then parseElems fuel rest2 (acc ++ [v])
        else if c = ']' then some (.arr (acc ++ [v]), rest2)
        else none

end

/-- Model of Python `json.loads`: parse one JSON value and require that only
whitespace follows.  The fuel bound `2 * length + 2` strictly dominates the
recursion depth the parser can reach on the input, so it never causes a
spurious failure. -/
def pyJsonLoads (s : List Char) : Option JsonVal :=
  match parseValue (2 * s.length + 2) s with
  | some (v, rest) => if (skipWs rest).isEmpty then some v else none
  | none => none

/-! ## The shared response-parsing pipeline

All four agents run the identical inline sequence on the model response:
fence stripping, `str.strip()`, `json.loads`, with `json.JSONDecodeError`
caught and routed to a per-agent fallback record. -/

/-- Association-list representation of a parsed Python dict. -/
abbrev Obj := List (List Char × JsonVal)

/-- Fence-strip, `strip()` and `json.loads` a model response; `none` is the
caught `json.JSONDecodeError` path. -/
def extractAndParse (content : List Char) : Option JsonVal :=
  pyJsonLoads (pyStrip (extractContent content))

/-- Fallback analysis dict built by `CouncilAgent.analyze` when JSON parsing
fails (src/agents/council.py lines 87-94). -/
def analyzeFallback (name content : List Char) : Obj :=
  [(S "agent_name", .str name),
   (S "predicted_type", .str (S "Unknown")),
   (S "confidence", .intNum 0),
   (S "reasoning", .str (S "Failed to parse response")),
   (S "raw_response", .str content)]

/-- Model of the response-processing stage of `CouncilAgent.analyze`
(src/agents/council.py lines 77-96).  `content` is the model response text;
`some` is a normal return, `none` models an uncaught exception: when
`json.loads` succeeds with a non-dict value, the statement
`analysis["agent_name"] = self.name` raises `TypeError`, which the
`except json.JSONDecodeError` clause does not catch. -/
def analyze (name content : List Char) : Option Obj :=
  match extractAndParse content with
  | some (.obj fields) => some (dictSet fields (S "agent_name") (.str name))
  | some _ => none
  | none => some (analyzeFallback name content)

/-- Fields of the fallback dossier dict built by `ScoutAgent.research` when
JSON parsing fails (src/agents/scout.py lines 80-89). -/
def researchFallback (characterName mediaSource content : List Char) : Obj :=
  [(S "character_name", .str characterName),
   (S "media_source", .str mediaSource),
   (S "behavioral_facts", .arr [.str (content.take 500)]),
   (S "key_quotes", .arr []),
   (S "summary", .str (S "Failed to parse structured response")),
   (S "raw_response", .str content)]

/-- Model of the response-processing stage of `ScoutAgent.research`
(src/agents/scout.py lines 67-91).  The parsed value is returned as-is
(no subscript assignment follows the load, so no exception path exists
here); on `json.JSONDecodeError` the fallback dossier is returned. -/
def research (characterName mediaSource content : List Char) : JsonVal :=
  match extractAndParse content with
  | some v => v
  | none => .obj (researchFallback characterName mediaSource content)

/-- Fallback validation dict built by `ValidatorAgent.validate` when JSON
parsing fails (src/agents/council.py lines 266-271); note the summary embeds
only `response.content[:200]` and no `raw_response` field is kept. -/
def validateFallback (content : List Char) : JsonVal :=
  .obj [(S "errors_found", .arr []),
        (S "verified_correct", .arr []),
        (S "summary", .str (S "Failed to parse validation response: " ++
          content.take 200 ++ S "..."))]

/-- Model of the response-processing stage of `ValidatorAgent.validate`
(src/agents/council.py lines 255-273). -/
def validate (content : List Char) : JsonVal :=
  match extractAndParse content with
  | some v => v
  | none => validateFallback content

/-- Fallback verdict dict built by `ManagerAgent.synthesize` when JSON
parsing fails (src/agents/manager.py lines 125-137). -/
def synthesizeFallback (content : List Char) : JsonVal :=
  .obj [(S "final_type", .str (S "Unknown")),
        (S "type_name", .str (S "Could not determine")),
        (S "type_nickname", .str (S "Unknown")),
        (S "quadra", .str (S "Unknown")),
        (S "confidence_score", .intNum 0),
        (S "confidence_explanation", .str (S "Failed to parse response")),
        (S "key_traits", .arr []),
        (S "summary", .str (content.take 500)),
        (S "raw_response", .str content)]

/-- Model of the response-processing stage of `ManagerAgent.synthesize`
(src/agents/manager.py lines 36-139).  The three specialist analyses (and
the optional discussion/validation sections) only shape the prompt sent to
the model boundary; the returned verdict is the parsed model response
verbatim, with no post-hoc check against the specialists' predictions. -/
def synthesize (_reinin _quadra _functions : Obj) (content : List Char) : JsonVal :=
  match extractAndParse content with
  | some v => v
  | none => synthesizeFallback content

/-! ## The fan-out phases of `TheCouncil`

`deliberate` and `run_discussion` submit one task per specialist to a
thread pool and collect results via `as_completed`, keyed by agent name.
The model takes each specialist's outcome (`Except` = raised exception vs
returned value) and the completion order as inputs, and folds the per-task
collection exactly as the loop body does. -/

/-- The three specialist agent names, in construction order
(src/agents/council.py lines 279-285). -/
def agentNames : List (List Char) :=
  [S "Agent Reinin", S "Agent Quadra", S "Agent Functions"]

/-- Collect per-agent results into the shared dict in completion order;
model of the `for future in as_completed(...)` loop writing
`results[agent_name]`. -/
def collectByCompletion {α : Type} (slot : List Char → α)
    (order : List (List Char)) : List (List Char × α) :=
  order.foldl (fun m nm => dictSet m nm (slot nm)) []

/-- Error dict written by `TheCouncil.deliberate` for a specialist whose
analysis task raised (src/agents/council.py lines 313-319). -/
def analysisErrorRecord (name cause : List Char) : Obj :=
  [(S "agent_name", .str name),
   (S "predicted_type", .str (S "Error")),
   (S "confidence", .intNum 0),
   (S "reasoning", .str (S "Error during analysis: " ++ cause))]

/-- Per-slot result in the analysis fan-out: the returned analysis dict, or
the error record built from the caught exception's message. -/
def analysisSlot (name : List Char) (outcome : Except (List Char) Obj) : Obj :=
  match outcome with
  | .ok a => a
  | .error e => analysisErrorRecord name e

/-- Model of `TheCouncil.deliberate` (src/agents/council.py lines 288-325):
run the three analysis tasks, collect by completion order keyed by agent
name, and return the triple via `results.get(name, {})`. -/
def deliberate (outcomes : List Char → Except (List Char) Obj)
    (order : List (List Char)) : Obj × Obj × Obj :=
  let results := collectByCompletion (fun nm => analysisSlot nm (outcomes nm)) order
  ((dictGet results (S "Agent Reinin")).getD [],
   (dictGet results (S "Agent Quadra")).getD [],
   (dictGet results (S "Agent Functions")).getD [])

/-- Per-slot result in the discussion fan-out: the response text, or the
error placeholder (src/agents/council.py lines 360-368). -/
def discussionSlot (outcome : Except (List Char) (List Char)) : List Char :=
  match outcome with
  | .ok r => r
  | .error e => S "Error during discussion: " ++ e

/-- Model of `TheCouncil.run_discussion` (src/agents/council.py lines
339-370): fan out `respond_to_discussion`, collect by completion order
keyed by agent name, return the keyed mapping. -/
def run_discussion (outcomes : List Char → Except (List Char) (List Char))
    (order : List (List Char)) : List (List Char × List Char) :=
  collectByCompletion (fun nm => discussionSlot (outcomes nm)) order

/-! ## Dossier formatting (`CouncilAgent._format_dossier`) -/

/-- Decimal digits of an integer, as Python `str(int)` renders it. -/
def intToChars (n : Int) : List Char :=
  if n < 0 then '-' :: Nat.toDigits 10 n.natAbs else Nat.toDigits 10 n.toNat

/-- Fuel-indexed worker for `pyStr`; the value is matched before the fuel so
that the non-container cases reduce definitionally for any fuel. -/
def pyStrF (fuel : Nat) : JsonVal → List Char
  | .str s => s
  | .intNum n => intToChars n
  | .floatNum m e => intToChars m ++ S "e" ++ intToChars e
  | .nan => S "nan"
  | .inf neg => (if neg then S "-" else []) ++ S "inf"
  | .bool b => if b then S "True" else S "False"
  | .null => S "None"
  | .arr xs =>
    match fuel with
    | 0 => []
    | Nat.succ f => S "[" ++ List.intercalate (S ", ") (xs.map (pyStrF f)) ++ S "]"
  | .obj fs =>
    match fuel with
    | 0 => []
    | Nat.succ f =>
      [lbrace] ++
        List.intercalate (S ", ")
          (fs.map fun p => S "'" ++ p.1 ++ S "': " ++ pyStrF f p.2) ++ [rbrace]

/-- Nesting depth of a JSON value, used to pick an adequate fuel for
`pyStrF`. -/
def jdepth : JsonVal → Nat
  | .arr xs => (xs.attach.map fun x => jdepth x.1).foldl max 0 + 1
  | .obj fs => (fs.attach.map fun p => jdepth p.1.2).foldl max 0 + 1
  | _ => 0
decreasing_by
  · have := List.sizeOf_lt_of_mem x.2
    simp only [JsonVal.arr.sizeOf_spec]
    omega
  · have h1 := List.sizeOf_lt_of_mem p.2
    have h2 : sizeOf p.1.2 < sizeOf p.1 := by
      obtain ⟨a, b⟩ := p.1
      simp only [Prod.mk.sizeOf_spec]
      omega
    simp only [JsonVal.obj.sizeOf_spec]
    omega

/-- Rendering of a parsed JSON value inside a Python f-string (`str(x)`).
Strings render as their text; the float, list and dict renderings
approximate Python's (no theorem below evaluates them on those cases).  The
fuel `jdepth v + 1` strictly dominates the nesting depth, so it never runs
out. -/
def pyStr (v : JsonVal) : List Char := pyStrF (jdepth v + 1) v

/-- Python iteration over a parsed JSON value: lists yield elements, strings
yield single-character strings, dicts yield their keys.  Values Python
cannot iterate (numbers, booleans, `None`), which would raise `TypeError`
before any model call, are not exercised by any claim and yield `[]`. -/
def pyIter : JsonVal → List JsonVal
  | .arr xs => xs
  | .str s => s.map fun c => .str [c]
  | .obj fs => fs.map fun p => .str p.1
  | _ => []

/-- Fact-list selection in `CouncilAgent._format_dossier`
(src/agents/council.py line 150):
`dossier.get("biographical_facts", dossier.get("behavioral_facts", []))`. -/
def factsVal (d : Obj) : JsonVal :=
  (dictGet d (S "biographical_facts")).getD
    ((dictGet d (S "behavioral_facts")).getD (.arr []))

/-- Rendering of one entry of the key-quotes list
(src/agents/council.py lines 155-159). -/
def quoteLine (q : JsonVal) : List Char :=
  match q with
  | .obj qf =>
    S "- \"" ++ pyStr ((dictGet qf (S "quote")).getD (.str [])) ++
      S "\" (" ++ pyStr ((dictGet qf (S "context")).getD (.str [])) ++ S ")"
  | _ => S "- \"" ++ pyStr q ++ S "\""

/-- Rendering of one entry of the relationships list; non-dict entries are
skipped (src/agents/council.py lines 164-166). -/
def relLine (r : JsonVal) : Option (List Char) :=
  match r with
  | .obj rf =>
    some (S "- " ++ pyStr ((dictGet rf (S "person")).getD (.str (S "Unknown"))) ++
      S ": " ++ pyStr ((dictGet rf (S "dynamic")).getD (.str [])))
  | _ => none

/-- The `lines` list built by `CouncilAgent._format_dossier`
(src/agents/council.py lines 140-170), before the final join. -/
def dossierLines (d : Obj) : List (List Char) :=
  [S "Character: " ++ pyStr ((dictGet d (S "character_name")).getD (.str (S "Unknown"))),
   S "Source: " ++ pyStr ((dictGet d (S "media_source")).getD (.str (S "Unknown"))),
   [],
   S "BIOGRAPHICAL FACTS:"] ++
  (((pyIter (factsVal d)).zip (List.range (pyIter (factsVal d)).length)).map
    fun p => Nat.toDigits 10 (p.2 + 1) ++ S ". " ++ pyStr p.1) ++
  [S "\nKEY QUOTES:"] ++
  ((pyIter ((dictGet d (S "key_quotes")).getD (.arr []))).map quoteLine) ++
  (if (dictGet d (S "relationships")).isSome then
    S "\nKEY RELATIONSHIPS:" ::
      ((pyIter ((dictGet d (S "relationships")).getD (.arr []))).filterMap relLine)
   else []) ++
  [S "\nSUMMARY: " ++ pyStr ((dictGet d (S "summary")).getD (.str (S "No summary available")))]

/-- Model of `CouncilAgent._format_dossier`: the built lines joined with
newlines. -/
def format_dossier (d : Obj) : List Char :=
  List.intercalate (S "\n") (dossierLines d)

/-! ## Dict and collection lemmas -/

theorem dictGet_dictSet_self {α : Type} (l : List (List Char × α)) (k : List Char) (v : α) :
    dictGet (dictSet l k v) k = some v := by
  induction l with
  | nil => simp [dictSet, dictGet]
  | cons hd t ih =>
    obtain ⟨k', v'⟩ := hd
    by_cases hk : k' = k
    · simp [dictSet, hk, dictGet]
    · simp [dictSet, hk, dictGet, ih]

theorem dictGet_dictSet_ne {α : Type} (l : List (List Char × α)) (k k' : List Char) (v : α)
    (hk : k ≠ k') : dictGet (dictSet l k v) k' = dictGet l k' := by
  induction l with
  | nil => simp [dictSet, dictGet, hk]
  | cons hd t ih =>
    obtain ⟨a, b⟩ := hd
    by_cases ha : a = k
    · subst ha
      simp [dictSet, dictGet, hk]
    · simp only [dictSet, if_neg ha]
      by_cases ha' : a = k'
      · simp [dictGet, ha']
      · simp [dictGet, ha', ih]

theorem dictGet_foldl_set {α : Type} (slot : List Char → α) (k : List Char) :
    ∀ (order : List (List Char)) (m : List (List Char × α)),
      dictGet (order.foldl (fun m nm => dictSet m nm (slot nm)) m) k =
        if k ∈ order then some (slot k) else dictGet m k := by
  intro order
  induction order with
  | nil => intro m; simp
  | cons nm rest ih =>
    intro m
    simp only [List.foldl_cons]
    rw [ih]
    by_cases hk : k ∈ rest
    · simp [hk]
    · by_cases he : k = nm
      · subst he
        simp [hk, dictGet_dictSet_self]
      · simp [hk, he, List.mem_cons, dictGet_dictSet_ne m nm k (slot nm) (Ne.symm he)]

theorem dictGet_collect {α : Type} (slot : List Char → α) (order : List (List Char))
    (k : List Char) :
    dictGet (collectByCompletion slot order) k =
      if k ∈ order then some (slot k) else none := by
  unfold collectByCompletion
  rw [dictGet_foldl_set]
  simp [dictGet]

theorem dictSet_of_not_mem_keys {α : Type} (l : List (List Char × α)) (k : List Char) (v : α)
    (h : k ∉ l.map Prod.fst) : dictSet l k v = l ++ [(k, v)] := by
  induction l with
  | nil => simp [dictSet]
  | cons hd t ih =>
    obtain ⟨a, b⟩ := hd
    simp only [List.map_cons, List.mem_cons] at h
    push_neg at h
    simp [dictSet, Ne.symm h.1, ih h.2]

theorem keys_foldl_set {α : Type} (slot : List Char → α) :
    ∀ (order : List (List Char)) (m : List (List Char × α)),
      (∀ x ∈ order, x ∉ m.map Prod.fst) → order.Nodup →
      (order.foldl (fun m nm => dictSet m nm (slot nm)) m).map Prod.fst =
        m.map Prod.fst ++ order := by
  intro order
  induction order with
  | nil => intro m _ _; simp
  | cons nm rest ih =>
    intro m hfresh hnd
    simp only [List.foldl_cons]
    rw [dictSet_of_not_mem_keys m nm (slot nm) (hfresh nm (List.mem_cons_self nm rest))]
    have hnd' := hnd
    rw [List.nodup_cons] at hnd'
    have := ih (m ++ [(nm, slot nm)]) ?_ hnd'.2
    · rw [this]
      simp
    · intro x hx
      simp only [List.map_append, List.mem_append]
      push_neg
      refine ⟨hfresh x (List.mem_cons_of_mem nm hx), ?_⟩
      simp only [List.map_cons, List.map_nil, List.mem_singleton]
      intro hxe
      exact hnd'.1 (hxe ▸ hx)

theorem keys_collect {α : Type} (slot : List Char → α) (order : List (List Char))
    (h : order.Nodup) : (collectByCompletion slot order).map Prod.fst = order := by
  unfold collectByCompletion
  rw [keys_foldl_set slot order [] (by simp) h]
  simp

/-! ## Occurrence and split lemmas for the fence-stripping pipeline -/

/-- Substring occurrence as a decomposition. -/
def occursIn (sep s : List Char) : Prop := ∃ a b, s = a ++ sep ++ b

theorem firstSplit_some_eq (sep : List Char) :
    ∀ (s b a : List Char), firstSplit sep s = some (b, a) → s = b ++ sep ++ a := by
  intro s
  induction s with
  | nil =>
    intro b a h
    by_cases hp : sep.isPrefixOf ([] : List Char)
    · have hsep : sep = [] := by simpa using List.isPrefixOf_iff_prefix.mp hp
      simp only [firstSplit, if_pos hp, Option.some.injEq, Prod.mk.injEq] at h
      rw [← h.1, ← h.2, hsep]
      rfl
    · simp only [firstSplit, if_neg hp] at h
      exact absurd h (by simp)
  | cons c cs ih =>
    intro b a h
    by_cases hp : sep.isPrefixOf (c :: cs)
    · simp only [firstSplit, if_pos hp, Option.some.injEq, Prod.mk.injEq] at h
      obtain ⟨t, ht⟩ := List.isPrefixOf_iff_prefix.mp hp
      rw [← h.1, ← h.2, ← ht, List.drop_left]
      simp
    · simp only [firstSplit, if_neg hp] at h
      cases hfs : firstSplit sep cs with
      | none => rw [hfs] at h; exact absurd h (by simp)
      | some p =>
        rw [hfs] at h
        simp only [Option.map_some', Option.some.injEq, Prod.mk.injEq] at h
        have := ih p.1 p.2 (by rw [hfs])
        rw [← h.1, ← h.2]
        simp [this]

theorem firstSplit_isSome_of_occursIn {sep : List Char} (hsep : sep ≠ []) :
    ∀ {s : List Char}, occursIn sep s → (firstSplit sep s).isSome := by
  intro s
  induction s with
  | nil =>
    rintro ⟨a, b, hab⟩
    have : sep = [] := by
      have := hab.symm
      simp only [List.append_eq_nil, List.append_assoc] at this
      exact this.2.1
    exact absurd this hsep
  | cons c cs ih =>
    rintro ⟨a, b, hab⟩
    by_cases hp : sep.isPrefixOf (c :: cs)
    · simp [firstSplit, hp]
    · cases a with
      | nil =>
        exfalso
        apply hp
        apply List.isPrefixOf_iff_prefix.mpr
        exact ⟨b, by simpa using hab.symm⟩
      | cons a0 a' =>
        have hcs : cs = a' ++ sep ++ b := by
          simpa using congrArg List.tail hab
        have := ih ⟨a', b, hcs⟩
        simp only [firstSplit, if_neg hp]
        simpa using this

theorem firstSplit_eq_none_of_not_occursIn {sep s : List Char}
    (h : ¬ occursIn sep s) : firstSplit sep s = none := by
  cases hfs : firstSplit sep s with
  | none => rfl
  | some p =>
    exact absurd ⟨p.1, p.2, firstSplit_some_eq sep s p.1 p.2 (by rw [hfs])⟩ h

theorem not_occursIn_of_pyIn_false {sep s : List Char} (hsep : sep ≠ [])
    (h : pyIn sep s = false) : ¬ occursIn sep s := by
  intro hocc
  have := firstSplit_isSome_of_occursIn hsep hocc
  unfold pyIn at h
  rw [h] at this
  exact absurd this (by simp)

theorem firstSplit_of_isPre {sep s : List Char} (h : sep <+: s) :
    firstSplit sep s = some ([], s.drop sep.length) := by
  cases s with
  | nil =>
    have : sep = [] := by simpa using h
    simp [firstSplit, this, List.isPrefixOf_iff_prefix]
  | cons c cs =>
    simp [firstSplit, List.isPrefixOf_iff_prefix.mpr h]

theorem firstSplit_append_no_match (sep t : List Char) :
    ∀ (s : List Char),
      (∀ u v, s = u ++ v → v ≠ [] → ¬ (sep.isPrefixOf (v ++ t) = true)) →
      firstSplit sep (s ++ t) = (firstSplit sep t).map fun p => (s ++ p.1, p.2) := by
  intro s
  induction s with
  | nil =>
    intro _
    cases hfs : firstSplit sep t with
    | none => simp [hfs]
    | some p => simp [hfs]
  | cons c s' ih =>
    intro hcond
    have hnp : ¬ (sep.isPrefixOf ((c :: s') ++ t) = true) :=
      hcond [] (c :: s') rfl (by simp)
    have hstep : firstSplit sep ((c :: s') ++ t) =
        (firstSplit sep (s' ++ t)).map fun p => (c :: p.1, p.2) := by
      rw [List.cons_append]
      simp only [firstSplit]
      rw [if_neg (by simpa using hnp)]
    rw [hstep, ih fun u v hu hv => hcond (c :: u) v (by rw [hu, List.cons_append]) hv]
    cases hfs : firstSplit sep t with
    | none => simp [hfs]
    | some p => simp [hfs]

/-! ## Strip lemmas -/

theorem pyStrip_cons_of_space (c : Char) (s : List Char) (h : isPySpace c = true) :
    pyStrip (c :: s) = pyStrip s := by
  unfold pyStrip
  rw [List.dropWhile_cons_of_pos h]

theorem dropWhile_append_char (p : Char → Bool) :
    ∀ (l₁ l₂ : List Char), List.dropWhile p (l₁ ++ l₂) =
      if (List.dropWhile p l₁).isEmpty then List.dropWhile p l₂
      else List.dropWhile p l₁ ++ l₂ := by
  intro l₁
  induction l₁ with
  | nil => intro l₂; simp
  | cons c cs ih =>
    intro l₂
    by_cases hc : p c = true
    · rw [List.cons_append, List.dropWhile_cons_of_pos hc, List.dropWhile_cons_of_pos hc, ih]
    · have hc' : p c = false := by simpa using hc
      rw [List.cons_append, List.dropWhile_cons_of_neg (by simp [hc']),
        List.dropWhile_cons_of_neg (by simp [hc'])]
      simp

theorem pyStrip_concat_of_space (s : List Char) (c : Char) (h : isPySpace c = true) :
    pyStrip (s ++ [c]) = pyStrip s := by
  unfold pyStrip
  rw [dropWhile_append_char]
  rcases hd : List.dropWhile isPySpace s with _ | ⟨x, xs⟩
  · simp [List.dropWhile_cons, h]
  · rw [if_neg (by simp)]
    rw [List.reverse_append]
    simp only [List.reverse_cons, List.reverse_nil, List.nil_append, List.singleton_append]
    rw [List.dropWhile_cons_of_pos h]

/-! ## Lifting non-occurrence of the fence across the wrapper newlines -/

theorem head?_append_ne_nil {l₁ l₂ : List Char} (h : l₁ ≠ []) :
    (l₁ ++ l₂).head? = l₁.head? := by
  cases l₁ with
  | nil => exact absurd rfl h
  | cons c cs => rfl

theorem not_occursIn_concat_newline {j : List Char} (hj : ¬ occursIn fence j) :
    ¬ occursIn fence (j ++ ['\n']) := by
  rintro ⟨a, b, hab⟩
  rcases List.eq_nil_or_concat' b with rfl | ⟨b', x, rfl⟩
  · have h1 : (j ++ ['\n']).getLast? = some '\n' := List.getLast?_concat j
    rw [hab] at h1
    simp only [List.append_nil] at h1
    rw [List.getLast?_append_of_ne_nil a (by decide : fence ≠ [])] at h1
    exact absurd h1 (by decide)
  · have h1 : (j ++ ['\n']).getLast? = some '\n' := List.getLast?_concat j
    rw [hab] at h1
    have h2 : (a ++ fence ++ (b' ++ [x])).getLast? = some x := by
      rw [show a ++ fence ++ (b' ++ [x]) = (a ++ fence ++ b') ++ [x] by simp]
      exact List.getLast?_concat _
    rw [h2] at h1
    have hx : x = '\n' := by injection h1
    subst hx
    have h3 : j ++ ['\n'] = (a ++ fence ++ b') ++ ['\n'] := by
      rw [hab]; simp
    have h4 : j = a ++ fence ++ b' := List.append_cancel_right h3
    exact hj ⟨a, b', h4⟩

theorem not_occursIn_cons_newline {r : List Char} (hr : ¬ occursIn fence r) :
    ¬ occursIn fence ('\n' :: r) := by
  rintro ⟨a, b, hab⟩
  cases a with
  | nil =>
    have h1 : (([] : List Char) ++ fence ++ b).head? = some '\n' := by rw [← hab]; rfl
    simp only [List.nil_append] at h1
    rw [head?_append_ne_nil (by decide : fence ≠ [])] at h1
    exact absurd h1 (by decide)
  | cons a0 a' =>
    have h2 : r = a' ++ fence ++ b := by simpa using congrArg List.tail hab
    exact hr ⟨a', b, h2⟩

/-- Non-occurrence of the fence in the bare payload lifts to the
newline-wrapped payload. -/
theorem not_occursIn_wrap {j : List Char} (hj : ¬ occursIn fence j) :
    ¬ occursIn fence ('\n' :: (j ++ ['\n'])) :=
  not_occursIn_cons_newline (not_occursIn_concat_newline hj)

/-- No occurrence of `sep` (a marker extending the fence and containing no
newline) can start inside the newline-wrapped payload, even spanning into a
trailing fence. -/
theorem no_inner_match (sep : List Char) (hpre : fence <+: sep) (hnl : '\n' ∉ sep)
    (j : List Char) (hocc : ¬ occursIn fence ('\n' :: (j ++ ['\n']))) :
    ∀ u v, ('\n' :: (j ++ ['\n'])) = u ++ v → v ≠ [] →
      ¬ (sep.isPrefixOf (v ++ fence) = true) := by
  intro u v hs hv hbool
  have hvp : sep <+: v ++ fence := List.isPrefixOf_iff_prefix.mp hbool
  by_cases hlen : sep.length ≤ v.length
  · have hv2 : sep <+: v :=
      List.prefix_of_prefix_length_le hvp (List.prefix_append v fence) hlen
    obtain ⟨w, hw⟩ := hv2
    obtain ⟨w2, hw2⟩ := hpre
    refine hocc ⟨u, w2 ++ w, ?_⟩
    rw [hs, ← hw, ← hw2]
    simp [List.append_assoc]
  · push_neg at hlen
    have hv2 : v <+: sep :=
      List.prefix_of_prefix_length_le (List.prefix_append v fence) hvp (le_of_lt hlen)
    have hlast : v.getLast? = some '\n' := by
      have h1 : ('\n' :: (j ++ ['\n'])).getLast? = some '\n' := by
        rw [show ('\n' :: (j ++ ['\n'])) = ('\n' :: j) ++ ['\n'] by simp]
        exact List.getLast?_concat _
      rw [hs] at h1
      rwa [List.getLast?_append_of_ne_nil u hv] at h1
    have hmem : '\n' ∈ v := List.mem_of_mem_getLast? hlast
    exact hnl (hv2.subset hmem)

/-! ## Computation of the extraction on fenced and bare payloads -/

/-- A model response wrapping payload `j` in a fenced block labeled json. -/
def fenceWrap (j : List Char) : List Char := S "```json\n" ++ j ++ S "\n```"

theorem extract_fenceWrap (j : List Char) (hj : pyIn fence j = false) :
    extractContent (fenceWrap j) = '\n' :: (j ++ ['\n']) := by
  have hocc : ¬ occursIn fence j := not_occursIn_of_pyIn_false (by decide) hj
  have hocc1 : ¬ occursIn fence ('\n' :: (j ++ ['\n'])) := not_occursIn_wrap hocc
  have hshape : fenceWrap j = fenceJson ++ (('\n' :: (j ++ ['\n'])) ++ fence) := by
    show S "```json\n" ++ j ++ S "\n```" = _
    rw [show S "```json\n" = fenceJson ++ ['\n'] from rfl,
      show S "\n```" = '\n' :: fence from rfl]
    simp
  have h1 : firstSplit fenceJson (fenceWrap j) =
      some ([], ('\n' :: (j ++ ['\n'])) ++ fence) := by
    rw [hshape, firstSplit_of_isPre ⟨('\n' :: (j ++ ['\n'])) ++ fence, rfl⟩, List.drop_left]
  have h2 : firstSplit fenceJson (('\n' :: (j ++ ['\n'])) ++ fence) = none := by
    rw [firstSplit_append_no_match fenceJson fence _
      (no_inner_match fenceJson (by decide) (by decide) j hocc1)]
    rw [show firstSplit fenceJson fence = none from rfl]
    rfl
  have h3 : firstSplit fence (('\n' :: (j ++ ['\n'])) ++ fence) =
      some ('\n' :: (j ++ ['\n']), []) := by
    rw [firstSplit_append_no_match fence fence _
      (no_inner_match fence (List.prefix_refl fence) (by decide) j hocc1)]
    rw [show firstSplit fence fence = some ([], []) from rfl]
    simp
  have hin : pyIn fenceJson (fenceWrap j) = true := by
    unfold pyIn
    rw [h1]
    rfl
  have hseg1 : seg1 fenceJson (fenceWrap j) = ('\n' :: (j ++ ['\n'])) ++ fence := by
    unfold seg1
    rw [h1]
    show seg0 fenceJson (('\n' :: (j ++ ['\n'])) ++ fence) = _
    unfold seg0
    rw [h2]
  have hseg0 : seg0 fence (('\n' :: (j ++ ['\n'])) ++ fence) = '\n' :: (j ++ ['\n']) := by
    unfold seg0
    rw [h3]
  unfold extractContent
  rw [if_pos hin, hseg1, hseg0]

theorem extract_bare (j : List Char) (hj : pyIn fence j = false) :
    extractContent j = j := by
  have hocc : ¬ occursIn fence j := not_occursIn_of_pyIn_false (by decide) hj
  have hoccJ : ¬ occursIn fenceJson j := by
    rintro ⟨a, b, hab⟩
    exact hocc ⟨a, S "json" ++ b, by rw [hab,
      show fenceJson = fence ++ S "json" from rfl]; simp⟩
  have hinJ : pyIn fenceJson j = false := by
    unfold pyIn
    rw [firstSplit_eq_none_of_not_occursIn hoccJ]
    rfl
  unfold extractContent
  rw [if_neg (by rw [hinJ]; simp), if_neg (by rw [hj]; simp)]

theorem strip_wrap (j : List Char) :
    pyStrip ('\n' :: (j ++ ['\n'])) = pyStrip j := by
  rw [pyStrip_cons_of_space _ _ (by decide), pyStrip_concat_of_space _ _ (by decide)]

/-- Occurrence of a pattern bounds the count of any character from below. -/
theorem count_le_of_occursIn {sep s : List Char} (c : Char) (h : occursIn sep s) :
    sep.count c ≤ s.count c := by
  obtain ⟨a, b, rfl⟩ := h
  simp only [List.count_append]
  omega

/-! ## Claims -/

/-- C3: for every model response whose content does not decode as JSON after
fence stripping, `CouncilAgent.analyze` returns (never raises) a
structurally valid degraded record with `predicted_type = "Unknown"`,
`confidence = 0`, `reasoning = "Failed to parse response"`, `agent_name`
set to the instance's name, and the raw response text preserved. -/
theorem claim3_parse_failure_degrades (name content : List Char)
    (h : extractAndParse content = none) :
    analyze name content = some (analyzeFallback name content) ∧
    ∃ r, analyze name content = some r ∧
      dictGet r (S "agent_name") = some (.str name) ∧
      dictGet r (S "predicted_type") = some (.str (S "Unknown")) ∧
      dictGet r (S "confidence") = some (.intNum 0) ∧
      dictGet r (S "reasoning") = some (.str (S "Failed to parse response")) ∧
      dictGet r (S "raw_response") = some (.str content) := by
  have ha : analyze name content = some (analyzeFallback name content) := by
    unfold analyze
    rw [h]
  exact ⟨ha, analyzeFallback name content, ha, rfl, rfl, rfl, rfl, rfl⟩

/-- Witness for C3 at a concrete non-JSON model response. -/
theorem claim3_parse_failure_degrades_witness :
    extractAndParse (S "The subject is clearly an ILE.") = none ∧
    analyze (S "Agent Reinin") (S "The subject is clearly an ILE.") =
      some (analyzeFallback (S "Agent Reinin") (S "The subject is clearly an ILE.")) :=
  ⟨rfl, (claim3_parse_failure_degrades (S "Agent Reinin")
    (S "The subject is clearly an ILE.") rfl).1⟩

/-- C4: `ScoutAgent.research` never raises on JSON parse failure: it returns
a degraded dossier whose fact list is exactly one 500-character-truncated
copy of the raw response and whose summary records the parse failure. -/
theorem claim4_scout_parse_failure_degrades (nm ms content : List Char)
    (h : extractAndParse content = none) :
    research nm ms content = .obj (researchFallback nm ms content) ∧
    jGet (research nm ms content) (S "behavioral_facts") =
      some (.arr [.str (content.take 500)]) ∧
    jGet (research nm ms content) (S "summary") =
      some (.str (S "Failed to parse structured response")) ∧
    jGet (research nm ms content) (S "raw_response") = some (.str content) := by
  have hr : research nm ms content = .obj (researchFallback nm ms content) := by
    unfold research
    rw [h]
  exact ⟨hr, by rw [hr]; rfl, by rw [hr]; rfl, by rw [hr]; rfl⟩

/-- Witness for C4 at a concrete non-JSON model response. -/
theorem claim4_scout_parse_failure_degrades_witness :
    extractAndParse (S "no structured dossier here") = none ∧
    research (S "Ada") (S "Novel") (S "no structured dossier here") =
      .obj (researchFallback (S "Ada") (S "Novel") (S "no structured dossier here")) :=
  ⟨rfl, (claim4_scout_parse_failure_degrades (S "Ada") (S "Novel")
    (S "no structured dossier here") rfl).1⟩

/-- C8: for every model response that decodes to a JSON object,
`CouncilAgent.analyze` returns a record whose `agent_name` equals the
instance's own configured name — injected by the analyst, overriding any
`agent_name` in the model output — and whose other decoded fields are
copied verbatim. -/
theorem claim8_agent_name_injected (name content : List Char) (fields : Obj)
    (h : extractAndParse content = some (.obj fields)) :
    analyze name content = some (dictSet fields (S "agent_name") (.str name)) ∧
    ∃ r, analyze name content = some r ∧
      dictGet r (S "agent_name") = some (.str name) ∧
      ∀ k, k ≠ S "agent_name" → dictGet r k = dictGet fields k := by
  have ha : analyze name content = some (dictSet fields (S "agent_name") (.str name)) := by
    unfold analyze
    rw [h]
  exact ⟨ha, dictSet fields (S "agent_name") (.str name), ha,
    dictGet_dictSet_self fields _ _,
    fun k hk => dictGet_dictSet_ne fields _ k _ (Ne.symm hk)⟩

/-- Witness for C8: a model response that even spoofs `agent_name`; the
analyst's own identity overrides it, the other fields are copied. -/
theorem claim8_agent_name_injected_witness :
    extractAndParse (S "\x7b\"predicted_type\": \"AAA\", \"confidence\": 70, \"reasoning\": \"r\", \"agent_name\": \"Spoof\"\x7d") =
      some (.obj [(S "predicted_type", .str (S "AAA")), (S "confidence", .intNum 70),
        (S "reasoning", .str (S "r")), (S "agent_name", .str (S "Spoof"))]) ∧
    analyze (S "Agent Quadra")
      (S "\x7b\"predicted_type\": \"AAA\", \"confidence\": 70, \"reasoning\": \"r\", \"agent_name\": \"Spoof\"\x7d") =
      some [(S "predicted_type", .str (S "AAA")), (S "confidence", .intNum 70),
        (S "reasoning", .str (S "r")), (S "agent_name", .str (S "Agent Quadra"))] :=
  ⟨rfl, (claim8_agent_name_injected (S "Agent Quadra")
    (S "\x7b\"predicted_type\": \"AAA\", \"confidence\": 70, \"reasoning\": \"r\", \"agent_name\": \"Spoof\"\x7d")
    [(S "predicted_type", .str (S "AAA")), (S "confidence", .intNum 70),
      (S "reasoning", .str (S "r")), (S "agent_name", .str (S "Spoof"))] rfl).1⟩

/-- C2 as stated is false: on a successfully parsed response the
`confidence` field is copied verbatim with no range validation; the model
response `{"confidence": 150}` yields a record carrying confidence 150,
outside [0, 100]. -/
theorem claim2_counterexample :
    analyze (S "Agent Reinin") (S "\x7b\"confidence\": 150\x7d") =
      some [(S "confidence", .intNum 150), (S "agent_name", .str (S "Agent Reinin"))] ∧
    ¬ ((150 : Int) ≤ 100) :=
  ⟨rfl, by decide⟩

/-- C2 (amended): on parse failure the returned record always carries
`confidence = 0` and `predicted_type = "Unknown"` (never a missing field);
on a successfully parsed object the confidence is copied verbatim from the
model output, so the [0, 100] bound is not enforced by the code. -/
theorem claim2_confidence_contract (name content : List Char) :
    (extractAndParse content = none →
      ∃ r, analyze name content = some r ∧
        dictGet r (S "confidence") = some (.intNum 0) ∧
        dictGet r (S "predicted_type") = some (.str (S "Unknown"))) ∧
    (∀ fields, extractAndParse content = some (.obj fields) →
      ∃ r, analyze name content = some r ∧
        dictGet r (S "confidence") = dictGet fields (S "confidence")) := by
  constructor
  · intro h
    have ha : analyze name content = some (analyzeFallback name content) := by
      unfold analyze
      rw [h]
    exact ⟨analyzeFallback name content, ha, rfl, rfl⟩
  · intro fields h
    have ha : analyze name content = some (dictSet fields (S "agent_name") (.str name)) := by
      unfold analyze
      rw [h]
    exact ⟨dictSet fields (S "agent_name") (.str name), ha,
      dictGet_dictSet_ne fields _ _ _ (by decide)⟩

/-- Witness for C2 (amended), exercising both the parse-failure branch and
the verbatim-copy branch at concrete inputs. -/
theorem claim2_confidence_contract_witness :
    extractAndParse (S "garbled") = none ∧
    extractAndParse (S "\x7b\"confidence\": 55\x7d") = some (.obj [(S "confidence", .intNum 55)]) ∧
    (∃ r, analyze (S "Agent Quadra") (S "garbled") = some r ∧
      dictGet r (S "confidence") = some (.intNum 0) ∧
      dictGet r (S "predicted_type") = some (.str (S "Unknown"))) ∧
    (∃ r, analyze (S "Agent Quadra") (S "\x7b\"confidence\": 55\x7d") = some r ∧
      dictGet r (S "confidence") =
        dictGet [(S "confidence", JsonVal.intNum 55)] (S "confidence")) :=
  ⟨rfl, rfl,
    (claim2_confidence_contract (S "Agent Quadra") (S "garbled")).1 rfl,
    (claim2_confidence_contract (S "Agent Quadra") (S "\x7b\"confidence\": 55\x7d")).2
      [(S "confidence", JsonVal.intNum 55)] rfl⟩

/-- C1 as stated is false: with specialists proposing only ILE and SEI, a
model verdict naming LIE is returned verbatim by `ManagerAgent.synthesize`,
so the emitted `final_type` is a label no specialist proposed. -/
theorem claim1_counterexample :
    dictGet [(S "predicted_type", JsonVal.str (S "ILE"))] (S "predicted_type") =
      some (.str (S "ILE")) ∧
    dictGet [(S "predicted_type", JsonVal.str (S "SEI"))] (S "predicted_type") =
      some (.str (S "SEI")) ∧
    jGet (synthesize [(S "predicted_type", JsonVal.str (S "ILE"))]
        [(S "predicted_type", JsonVal.str (S "SEI"))]
        [(S "predicted_type", JsonVal.str (S "ILE"))]
        (S "\x7b\"final_type\": \"LIE\"\x7d")) (S "final_type") =
      some (.str (S "LIE")) ∧
    S "LIE" ≠ S "ILE" ∧ S "LIE" ≠ S "SEI" :=
  ⟨rfl, rfl, rfl, by decide, by decide⟩

/-- C1 (amended): the specialist-membership constraint on
`Verdict.final_type` lives only in the Manager prompt; the code returns the
parsed model verdict verbatim (and `final_type = "Unknown"` on parse
failure), enforcing no membership in the specialists' proposed set. -/
theorem claim1_final_type_copied_verbatim :
    (∀ r q f content v, extractAndParse content = some v →
      synthesize r q f content = v) ∧
    (∀ r q f content, extractAndParse content = none →
      jGet (synthesize r q f content) (S "final_type") =
        some (.str (S "Unknown"))) := by
  constructor
  · intro r q f content v h
    unfold synthesize
    rw [h]
  · intro r q f content h
    unfold synthesize
    rw [h]
    rfl

/-- Witness for C1 (amended), exercising both branches at concrete inputs. -/
theorem claim1_final_type_copied_verbatim_witness :
    extractAndParse (S "\x7b\"final_type\": \"EII\"\x7d") =
      some (.obj [(S "final_type", .str (S "EII"))]) ∧
    synthesize [] [] [] (S "\x7b\"final_type\": \"EII\"\x7d") =
      .obj [(S "final_type", .str (S "EII"))] ∧
    extractAndParse (S "no verdict") = none ∧
    jGet (synthesize [] [] [] (S "no verdict")) (S "final_type") =
      some (.str (S "Unknown")) :=
  ⟨rfl,
    claim1_final_type_copied_verbatim.1 [] [] [] (S "\x7b\"final_type\": \"EII\"\x7d")
      (.obj [(S "final_type", .str (S "EII"))]) rfl,
    rfl,
    claim1_final_type_copied_verbatim.2 [] [] [] (S "no verdict") rfl⟩

/-- C5: for every completion order of the three discussion tasks, the
mapping returned by `TheCouncil.run_discussion` carries exactly the three
agent-name keys; a specialist whose task raised gets the
`"Error during discussion: <cause>"` placeholder while every other slot
holds that specialist's own response, unaffected. -/
theorem claim5_discussion_containment
    (outcomes : List Char → Except (List Char) (List Char))
    (order : List (List Char)) (h : order.Perm agentNames) :
    (run_discussion outcomes order).map Prod.fst = order ∧
    ∀ nm, nm ∈ agentNames →
      dictGet (run_discussion outcomes order) nm =
        some (discussionSlot (outcomes nm)) := by
  have hnd : order.Nodup := h.symm.nodup (by decide)
  constructor
  · exact keys_collect _ order hnd
  · intro nm hnm
    show dictGet (collectByCompletion _ order) nm = _
    rw [dictGet_collect, if_pos (h.mem_iff.mpr hnm)]

/-- Witness for C5: Agent Quadra's task raises while the other two return;
the mapping keeps all three keys, the failing slot holds the placeholder. -/
theorem claim5_discussion_containment_witness :
    (run_discussion
      (fun nm => if nm = S "Agent Quadra" then .error (S "boom") else .ok (S "resp " ++ nm))
      [S "Agent Functions", S "Agent Reinin", S "Agent Quadra"]).map Prod.fst =
      [S "Agent Functions", S "Agent Reinin", S "Agent Quadra"] ∧
    dictGet (run_discussion
      (fun nm => if nm = S "Agent Quadra" then .error (S "boom") else .ok (S "resp " ++ nm))
      [S "Agent Functions", S "Agent Reinin", S "Agent Quadra"]) (S "Agent Reinin") =
      some (S "resp Agent Reinin") ∧
    dictGet (run_discussion
      (fun nm => if nm = S "Agent Quadra" then .error (S "boom") else .ok (S "resp " ++ nm))
      [S "Agent Functions", S "Agent Reinin", S "Agent Quadra"]) (S "Agent Quadra") =
      some (S "Error during discussion: boom") ∧
    dictGet (run_discussion
      (fun nm => if nm = S "Agent Quadra" then .error (S "boom") else .ok (S "resp " ++ nm))
      [S "Agent Functions", S "Agent Reinin", S "Agent Quadra"]) (S "Agent Functions") =
      some (S "resp Agent Functions") := by
  obtain ⟨h1, h2⟩ := claim5_discussion_containment
    (fun nm => if nm = S "Agent Quadra" then .error (S "boom") else .ok (S "resp " ++ nm))
    [S "Agent Functions", S "Agent Reinin", S "Agent Quadra"] (by decide)
  exact ⟨h1, h2 _ (by decide), h2 _ (by decide), h2 _ (by decide)⟩

/-- C9: for a fixed dossier and fixed per-agent results, the triple returned
by `TheCouncil.deliberate` equals a canonical form in which each agent's
slot is a function of that agent's own outcome only — hence the result is
identical for any two completion orders of the three parallel tasks. -/
theorem claim9_deliberate_order_independent
    (outcomes : List Char → Except (List Char) Obj)
    (order : List (List Char)) (h : order.Perm agentNames) :
    deliberate outcomes order =
      (analysisSlot (S "Agent Reinin") (outcomes (S "Agent Reinin")),
       analysisSlot (S "Agent Quadra") (outcomes (S "Agent Quadra")),
       analysisSlot (S "Agent Functions") (outcomes (S "Agent Functions"))) := by
  show ((dictGet (collectByCompletion (fun nm => analysisSlot nm (outcomes nm)) order)
      (S "Agent Reinin")).getD [],
    (dictGet (collectByCompletion (fun nm => analysisSlot nm (outcomes nm)) order)
      (S "Agent Quadra")).getD [],
    (dictGet (collectByCompletion (fun nm => analysisSlot nm (outcomes nm)) order)
      (S "Agent Functions")).getD []) = _
  rw [dictGet_collect, dictGet_collect, dictGet_collect,
    if_pos (h.mem_iff.mpr (by decide)), if_pos (h.mem_iff.mpr (by decide)),
    if_pos (h.mem_iff.mpr (by decide))]
  rfl

/-- Witness for C9: two different completion orders (failure finishing first
vs last) produce the identical triple, with the failing agent's slot holding
the error record. -/
theorem claim9_deliberate_order_independent_witness :
    deliberate
      (fun nm => if nm = S "Agent Functions" then .error (S "connection reset")
        else .ok [(S "predicted_type", JsonVal.str (S "ILE"))])
      [S "Agent Functions", S "Agent Quadra", S "Agent Reinin"] =
    deliberate
      (fun nm => if nm = S "Agent Functions" then .error (S "connection reset")
        else .ok [(S "predicted_type", JsonVal.str (S "ILE"))])
      [S "Agent Quadra", S "Agent Reinin", S "Agent Functions"] ∧
    deliberate
      (fun nm => if nm = S "Agent Functions" then .error (S "connection reset")
        else .ok [(S "predicted_type", JsonVal.str (S "ILE"))])
      [S "Agent Functions", S "Agent Quadra", S "Agent Reinin"] =
      ([(S "predicted_type", JsonVal.str (S "ILE"))],
       [(S "predicted_type", JsonVal.str (S "ILE"))],
       analysisErrorRecord (S "Agent Functions") (S "connection reset")) := by
  have hA := claim9_deliberate_order_independent
    (fun nm => if nm = S "Agent Functions" then .error (S "connection reset")
      else .ok [(S "predicted_type", JsonVal.str (S "ILE"))])
    [S "Agent Functions", S "Agent Quadra", S "Agent Reinin"] (by decide)
  have hB := claim9_deliberate_order_independent
    (fun nm => if nm = S "Agent Functions" then .error (S "connection reset")
      else .ok [(S "predicted_type", JsonVal.str (S "ILE"))])
    [S "Agent Quadra", S "Agent Reinin", S "Agent Functions"] (by decide)
  exact ⟨hA.trans hB.symm, hA⟩

set_option maxRecDepth 8000 in
set_option maxHeartbeats 2000000 in
/-- C6 as stated is false: on parse failure the validator's summary embeds
only the first 200 characters of the raw response (and keeps no
`raw_response` field), so for a 201-character response the raw text is not
preserved anywhere in the returned record. -/
theorem claim6_counterexample :
    extractAndParse (List.replicate 201 'x') = none ∧
    validate (List.replicate 201 'x') = validateFallback (List.replicate 201 'x') ∧
    pyIn (List.replicate 201 'x')
      (S "Failed to parse validation response: " ++
        (List.replicate 201 'x').take 200 ++ S "...") = false ∧
    jGet (validate (List.replicate 201 'x')) (S "raw_response") = none := by
  have hp : extractAndParse (List.replicate 201 'x') = none := rfl
  have hv : validate (List.replicate 201 'x') = validateFallback (List.replicate 201 'x') := by
    unfold validate
    rw [hp]
  have hocc : ¬ occursIn (List.replicate 201 'x')
      (S "Failed to parse validation response: " ++
        (List.replicate 201 'x').take 200 ++ S "...") := by
    intro hocc
    have hle := count_le_of_occursIn 'x' hocc
    have h1 : (List.replicate 201 'x').count 'x' = 201 :=
      List.count_replicate_self 'x' 201
    have h2 : (S "Failed to parse validation response: " ++
        (List.replicate 201 'x').take 200 ++ S "...").count 'x' = 200 := by
      have ha : (S "Failed to parse validation response: ").count 'x' = 0 := by decide
      have hb : (S "...").count 'x' = 0 := by decide
      rw [List.take_replicate, List.count_append, List.count_append, ha, hb,
        List.count_replicate_self]
      decide
    omega
  refine ⟨hp, hv, ?_, by rw [hv]; rfl⟩
  unfold pyIn
  rw [firstSplit_eq_none_of_not_occursIn hocc]
  rfl

/-- C6 (amended): for every model response that fails to decode,
`ValidatorAgent.validate` returns (never raises) a degraded report with
empty `errors_found` and `verified_correct` lists and a summary recording
the parse failure together with the first 200 characters of the raw
response; the full raw text is not retained and no `raw_response` field
exists. -/
theorem claim6_validator_degrades (content : List Char)
    (h : extractAndParse content = none) :
    validate content = validateFallback content ∧
    jGet (validate content) (S "errors_found") = some (.arr []) ∧
    jGet (validate content) (S "verified_correct") = some (.arr []) ∧
    jGet (validate content) (S "summary") =
      some (.str (S "Failed to parse validation response: " ++
        content.take 200 ++ S "...")) ∧
    jGet (validate content) (S "raw_response") = none := by
  have hv : validate content = validateFallback content := by
    unfold validate
    rw [h]
  exact ⟨hv, by rw [hv]; rfl, by rw [hv]; rfl, by rw [hv]; rfl, by rw [hv]; rfl⟩

/-- Witness for C6 (amended) at a concrete non-JSON model response. -/
theorem claim6_validator_degrades_witness :
    extractAndParse (S "not a json object") = none ∧
    validate (S "not a json object") = validateFallback (S "not a json object") :=
  ⟨rfl, (claim6_validator_degrades (S "not a json object") rfl).1⟩

/-- C7 as stated is false: the JSON object text `{"a": "```"}` decodes
directly, yet the parsing pipeline applied to the same bare text trips the
fence-stripping branch and fails to recover the object. -/
theorem claim7_counterexample :
    pyJsonLoads (S "\x7b\"a\": \"```\"\x7d") =
      some (.obj [(S "a", .str (S "```"))]) ∧
    extractAndParse (S "\x7b\"a\": \"```\"\x7d") = none :=
  ⟨rfl, rfl⟩

/-- C7 (amended): for every payload `j` containing no "```" substring, the
pipeline recovers the identical parse result from the fenced form
"```json\n j \n```" as from the bare form, and the bare form parses exactly
as stripping-then-decoding `j` directly. -/
theorem claim7_fence_roundtrip (j : List Char) (h : pyIn fence j = false) :
    extractAndParse (fenceWrap j) = extractAndParse j ∧
    extractAndParse j = pyJsonLoads (pyStrip j) := by
  constructor
  · unfold extractAndParse
    rw [extract_fenceWrap j h, extract_bare j h, strip_wrap]
  · unfold extractAndParse
    rw [extract_bare j h]

/-- Witness for C7 (amended) at a concrete fence-free JSON object. -/
theorem claim7_fence_roundtrip_witness :
    pyIn fence (S "\x7b\"a\": 1\x7d") = false ∧
    extractAndParse (fenceWrap (S "\x7b\"a\": 1\x7d")) =
      extractAndParse (S "\x7b\"a\": 1\x7d") ∧
    extractAndParse (S "\x7b\"a\": 1\x7d") = some (.obj [(S "a", .intNum 1)]) :=
  ⟨rfl, (claim7_fence_roundtrip (S "\x7b\"a\": 1\x7d") rfl).1, rfl⟩

/-- C10: `_format_dossier` takes the fact list from `biographical_facts`
when the key is present and otherwise falls back to `behavioral_facts`;
consequently a degraded Scout dossier, whose single truncated fact lives
under `behavioral_facts`, still renders a non-empty facts section (the line
`1. <truncated raw response>`). -/
theorem claim10_facts_fallback :
    (∀ (d : Obj) (v : JsonVal),
      dictGet d (S "biographical_facts") = some v → factsVal d = v) ∧
    (∀ (d : Obj) (v : JsonVal), dictGet d (S "biographical_facts") = none →
      dictGet d (S "behavioral_facts") = some v → factsVal d = v) ∧
    (∀ nm ms content, extractAndParse content = none →
      research nm ms content = .obj (researchFallback nm ms content) ∧
      (S "1. " ++ content.take 500) ∈ dossierLines (researchFallback nm ms content)) := by
  refine ⟨?_, ?_, ?_⟩
  · intro d v h
    unfold factsVal
    rw [h]
    rfl
  · intro d v h1 h2
    unfold factsVal
    rw [h1, h2]
    rfl
  · intro nm ms content h
    have hr : research nm ms content = .obj (researchFallback nm ms content) := by
      unfold research
      rw [h]
    refine ⟨hr, ?_⟩
    have hl : dossierLines (researchFallback nm ms content) =
        [S "Character: " ++ pyStr (JsonVal.str nm),
         S "Source: " ++ pyStr (JsonVal.str ms),
         [],
         S "BIOGRAPHICAL FACTS:",
         Nat.toDigits 10 (0 + 1) ++ S ". " ++ pyStr (JsonVal.str (content.take 500)),
         S "\nKEY QUOTES:",
         S "\nSUMMARY: " ++ pyStr (JsonVal.str (S "Failed to parse structured response"))] := by
      rfl
    rw [hl]
    exact List.Mem.tail _ (List.Mem.tail _ (List.Mem.tail _ (List.Mem.tail _
      (List.Mem.head _))))

/-- Witness for C10: both fact-key selections at concrete dossiers, and the
rendered fact line of a concrete degraded Scout dossier. -/
theorem claim10_facts_fallback_witness :
    factsVal [(S "biographical_facts", JsonVal.arr [JsonVal.str (S "fact A")]),
        (S "behavioral_facts", JsonVal.arr [JsonVal.str (S "old")])] =
      .arr [.str (S "fact A")] ∧
    factsVal [(S "behavioral_facts", JsonVal.arr [JsonVal.str (S "fact B")])] =
      .arr [.str (S "fact B")] ∧
    extractAndParse (S "unparsable dossier") = none ∧
    (S "1. " ++ (S "unparsable dossier").take 500) ∈
      dossierLines (researchFallback (S "Ada") (S "Novel") (S "unparsable dossier")) :=
  ⟨claim10_facts_fallback.1
      [(S "biographical_facts", JsonVal.arr [JsonVal.str (S "fact A")]),
        (S "behavioral_facts", JsonVal.arr [JsonVal.str (S "old")])]
      (.arr [.str (S "fact A")]) rfl,
    claim10_facts_fallback.2.1
      [(S "behavioral_facts", JsonVal.arr [JsonVal.str (S "fact B")])]
      (.arr [.str (S "fact B")]) rfl rfl,
    rfl,
    (claim10_facts_fallback.2.2 (S "Ada") (S "Novel") (S "unparsable dossier") rfl).2⟩

end SocPanel
